import Mathlib

/-!
Verification of `decompress-roundtripper` (`roundtripper.go`).

The repository implements an `http.RoundTripper` decorator that inspects the
`Content-Encoding` response header and wraps the response body in a chain of
decompressing readers (gzip / deflate / brotli), walking the comma-separated
token list from last to first.  We embed the decoding pipeline of
`RoundTripper.RoundTrip` (roundtripper.go lines 38-87), the error type
`ErrUnsupportedEncoding`, and `cascadeReadCloser.Close` as executable Lean
functions and prove the specification's claims about them.

Modelling conventions:

* Body contents are modelled by the inductive type `Data`: a payload of raw
  bytes, possibly wrapped by gzip / deflate / brotli compression layers.  The
  codec libraries (`compress/gzip`, `compress/flate`,
  `github.com/andybalholm/brotli`) are external collaborators of the
  repository; at this granularity a decoder for codec `c` succeeds on data
  wrapped by `c` and fails otherwise.
* A reader chain is a `List Codec` in application order: the head decoder is
  the innermost layer, the one that reads the wire bytes first; each later
  decoder reads the output of the previous one.  Reading the chained body to
  completion is `decodeChain`.
* `gzip.NewReader` reads the stream header eagerly at construction
  (`compress/gzip` calls `readHeader` inside `NewReader`), so it can fail at
  construction time and it consumes bytes from the underlying stream even
  when the round trip later aborts.  `flate.NewReader` and `brotli.NewReader`
  read lazily and cannot fail at construction.  We track whether any bytes
  were demanded from the raw response body with a `bodyConsumed` flag.
* Go errors are strings; `nil` errors are `none : Option String`.
-/

/-- The three compression layers the code recognizes (`gzip`, `deflate`, `br`). -/
inductive Codec where
  | gzip
  | deflate
  | brotli
deriving DecidableEq, Repr

/-- Body content: raw payload bytes, possibly wrapped in compression layers.
`gz d` is the gzip compression of `d`, `fl d` its raw-deflate compression,
`brc d` its brotli compression. -/
inductive Data where
  | raw : String → Data
  | gz : Data → Data
  | fl : Data → Data
  | brc : Data → Data
deriving DecidableEq, Repr

/-- One decoding step: the decoder for codec `c` applied to data `d`.  It
succeeds exactly when `d` carries the matching compression layer; otherwise it
reports the codec library's error (gzip detects this at construction via the
header magic check, deflate and brotli lazily at read time). -/
def decode1 : Codec → Data → Except String Data
  | .gzip, .gz d => .ok d
  | .deflate, .fl d => .ok d
  | .brotli, .brc d => .ok d
  | .gzip, _ => .error "gzip: invalid header"
  | .deflate, _ => .error "flate: corrupt input"
  | .brotli, _ => .error "brotli: corrupt input"

/-- Reading a chained body to completion: apply the decoders in application
order (head first) to the wire data.  This is the observable content of the
`body` variable built by `RoundTrip`'s loop. -/
def decodeChain : List Codec → Data → Except String Data
  | [], d => .ok d
  | c :: cs, d =>
    match decode1 c d with
    | .ok d2 => decodeChain cs d2
    | .error e => .error e

/-- Which decoder a (already trimmed) `Content-Encoding` token selects, if
any.  Matching in the Go `switch` is exact string comparison, hence
case-sensitive. -/
def codecOf : String → Option Codec
  | "gzip" => some Codec.gzip
  | "deflate" => some Codec.deflate
  | "br" => some Codec.brotli
  | _ => none

/-- Model of `strings.Split(s, ",")` on the character list: split at every
comma; `n` commas yield `n+1` fields, never an empty list. -/
def splitCommaChars : List Char → List (List Char)
  | [] => [[]]
  | c :: rest =>
    if c = ',' then [] :: splitCommaChars rest
    else
      match splitCommaChars rest with
      | h :: t => (c :: h) :: t
      | [] => [[c]]

/-- Model of Go's `strings.Split(s, ",")`. -/
def splitComma (s : String) : List String :=
  (splitCommaChars s.data).map (fun l => String.mk l)

/-- Model of Go's `strings.TrimSpace`: drop leading and trailing whitespace
characters. -/
def trimChars (l : List Char) : List Char :=
  ((l.dropWhile Char.isWhitespace).reverse.dropWhile Char.isWhitespace).reverse

/-- `strings.TrimSpace` on strings. -/
def trimSpace (s : String) : String :=
  String.mk (trimChars s.data)

/-- `http.Header` is modelled as an association list with canonical keys
(net/http canonicalizes keys on `Set`/`Get`/`Del`).  `Get` returns the first
value for the key, or `""` when the key is absent. -/
def headerGet (h : List (String × String)) (k : String) : String :=
  match h.find? (fun kv => kv.1 = k) with
  | some kv => kv.2
  | none => ""

/-- `http.Header.Del`: remove every entry for the key, keep the rest in
order. -/
def headerDel (h : List (String × String)) (k : String) : List (String × String) :=
  h.filter (fun kv => kv.1 ≠ k)

/-- The fields of `http.Response` that `RoundTrip` reads or writes, plus one
field it never touches (`statusCode`) to witness frame conditions.  The body
stream is represented by the wire content `bodyWire`, the decoder chain
`bodyDecoders` already wrapped around it (application order, `[]` for a fresh
network response), and `bodyConsumed`, which records whether any read was
already issued on the raw body stream (such bytes are gone: they sit in an
abandoned decoder's buffer, not in the stream). -/
structure Response where
  statusCode : Nat
  header : List (String × String)
  contentLength : Int
  uncompressed : Bool
  bodyWire : Data
  bodyDecoders : List Codec
  bodyConsumed : Bool
deriving DecidableEq, Repr

/-- Reading the raw response body stream to completion after the call: if a
decoder construction already consumed bytes from it, the original content can
no longer be recovered from the stream (`none`); otherwise the full wire
content is still there. -/
def Response.readRawBodyAll (res : Response) : Option Data :=
  if res.bodyConsumed then none else some res.bodyWire

/-- The errors `RoundTrip` can return: a propagated inner-transport error, the
wrapped gzip-reader construction error
(`fmt.Errorf("decompress: create gzip reader: %w", err)`), and
`ErrUnsupportedEncoding{Original: res, Encoding: encoding}`. -/
inductive RTError where
  | transport (msg : String)
  | wrappedError (msg : String)
  | errUnsupportedEncoding (original : Response) (encoding : String)
deriving DecidableEq, Repr

/-- The mutable local state of `RoundTrip`'s decoding loop: the decoder chain
built so far over the raw body (the `body` variable), the `decompressed`
flag, and whether bytes of the raw body stream were consumed by an eager
decoder construction. -/
structure LoopState where
  decoders : List Codec
  decompressed : Bool
  consumed : Bool
deriving DecidableEq, Repr

/-- One iteration of the `switch` in `RoundTrip` (roundtripper.go lines
48-69) on the trimmed token, returning the updated loop state and, when the
iteration returns from `RoundTrip`, the error it returns.  In the `gzip` case
`gzip.NewReader(body)` eagerly reads the stream header through the current
chain, which demands bytes from the raw body and fails if the chain's content
is not gzip data (or if an inner lazy decoder fails while producing it). -/
def processToken (res : Response) (st : LoopState) (tok : String) :
    LoopState × Option RTError :=
  let encoding := trimSpace tok
  if encoding = "gzip" then
    match decodeChain st.decoders res.bodyWire with
    | .ok (.gz _) =>
      ({ st with decoders := st.decoders ++ [Codec.gzip], decompressed := true,
                 consumed := true }, none)
    | .ok _ =>
      ({ st with decompressed := true, consumed := true },
       some (.wrappedError ("decompress: create gzip reader: " ++ "gzip: invalid header")))
    | .error e =>
      ({ st with decompressed := true, consumed := true },
       some (.wrappedError ("decompress: create gzip reader: " ++ e)))
  else if encoding = "deflate" then
    ({ st with decoders := st.decoders ++ [Codec.deflate], decompressed := true }, none)
  else if encoding = "br" then
    ({ st with decoders := st.decoders ++ [Codec.brotli], decompressed := true }, none)
  else if encoding = "identity" ∨ encoding = "" then
    (st, none)
  else
    (st, some (.errUnsupportedEncoding { res with bodyConsumed := st.consumed } encoding))

/-- The decoding loop of `RoundTrip` over a token list (the Go loop runs
`for i := len(encodings)-1; i >= 0; i--`, so it is applied to the reversed
token list).  Stops at the first iteration that returns an error. -/
def processTokens (res : Response) : List String → LoopState → LoopState × Option RTError
  | [], st => (st, none)
  | tok :: rest, st =>
    match processToken res st tok with
    | (st2, none) => processTokens res rest st2
    | (st2, some e) => (st2, some e)

/-- The decoding part of `RoundTrip` (roundtripper.go lines 38-87), applied to
the response obtained from the wrapped transport.  Returns the result of the
call together with the state of the response object `res` after the call
(Go mutates `res` in place; on success with decompression both components are
the same mutated object, otherwise `res` is unchanged except for bytes an
eager gzip construction may have consumed from its body stream). -/
def roundTrip (res : Response) : Except RTError Response × Response :=
  let ce := headerGet res.header "Content-Encoding"
  if ce.length = 0 then (.ok res, res)
  else
    let encodings := splitComma ce
    let init : LoopState :=
      { decoders := res.bodyDecoders, decompressed := false,
        consumed := res.bodyConsumed }
    match processTokens res encodings.reverse init with
    | (st, some e) => (.error e, { res with bodyConsumed := st.consumed })
    | (st, none) =>
      if !st.decompressed then (.ok res, res)
      else
        let res2 : Response :=
          { res with
            bodyDecoders := st.decoders,
            bodyConsumed := st.consumed,
            uncompressed := true,
            contentLength := -1,
            header := headerDel (headerDel res.header "Content-Encoding") "Content-Length" }
        (.ok res2, res2)

/-- `RoundTripper.RoundTrip` including the delegation to the wrapped
transport: an inner-transport failure is propagated immediately and no
decoding is attempted. -/
def roundTripWithTransport (inner : Except String Response) :
    Except RTError Response × Option Response :=
  match inner with
  | .error e => (.error (.transport e), none)
  | .ok res =>
    let p := roundTrip res
    (p.1, some p.2)

/-- An `io.Closer` as the cascade sees it: how often `Close` was called on it
and the error its `Close` returns. -/
structure Closer where
  calls : Nat
  result : Option String
deriving DecidableEq, Repr

/-- Calling `Close()` on a closer: records the call, yields its error. -/
def Closer.close (c : Closer) : Closer × Option String :=
  ({ c with calls := c.calls + 1 }, c.result)

/-- `cascadeReadCloser`: the decoder's own stream (`readFrom`) and the stream
beneath it (`cascade`). -/
structure cascadeReadCloser where
  readFrom : Closer
  cascade : Closer
deriving DecidableEq, Repr

/-- `cascadeReadCloser.Close` (roundtripper.go lines 111-124): close
`readFrom`, then unconditionally close `cascade`; combine the error messages
with `fmt.Errorf("%s: %s", ...)` when both fail, otherwise return the single
failure or nil. -/
def cascadeReadCloser.Close (c : cascadeReadCloser) : cascadeReadCloser × Option String :=
  let p := c.readFrom.close
  let q := c.cascade.close
  let c2 : cascadeReadCloser := { readFrom := p.1, cascade := q.1 }
  match p.2, q.2 with
  | some rerr, some cerr => (c2, some (rerr ++ ": " ++ cerr))
  | some rerr, none => (c2, some rerr)
  | none, some cerr => (c2, some cerr)
  | none, none => (c2, none)

/-- The `Content-Encoding` token list of a response, as `RoundTrip` computes
it: `strings.Split(res.Header.Get("Content-Encoding"), ",")`. -/
def ceTokens (res : Response) : List String :=
  splitComma (headerGet res.header "Content-Encoding")

/- ### Helper lemmas -/

theorem str_eq_empty_of_length_zero (s : String) (h : s.length = 0) : s = "" := by
  cases s with
  | mk data =>
    simp only [String.length] at h
    rw [List.length_eq_zero] at h
    subst h
    rfl

theorem processTokens_append (res : Response) (l1 l2 : List String) (st : LoopState) :
    processTokens res (l1 ++ l2) st =
      match processTokens res l1 st with
      | (st2, none) => processTokens res l2 st2
      | (st2, some e) => (st2, some e) := by
  induction l1 generalizing st with
  | nil => simp [processTokens]
  | cons t rest ih =>
    simp only [List.cons_append, processTokens]
    cases h : processToken res st t with
    | mk st2 oe =>
      cases oe with
      | none => simp [ih]
      | some e => simp

theorem processTokens_ok_spec (res : Response) (toks : List String) (st st2 : LoopState)
    (h : processTokens res toks st = (st2, none)) :
    st2.decoders = st.decoders ++ toks.filterMap (fun t => codecOf (trimSpace t)) ∧
    st2.decompressed = (st.decompressed || toks.any (fun t => (codecOf (trimSpace t)).isSome)) := by
  induction toks generalizing st with
  | nil =>
    simp only [processTokens] at h
    cases h
    simp
  | cons t rest ih =>
    simp only [processTokens] at h
    by_cases hg : trimSpace t = "gzip"
    · cases hdc : decodeChain st.decoders res.bodyWire with
      | error e => simp [processToken, hg, hdc] at h
      | ok d =>
        cases d with
        | gz d2 =>
          simp only [processToken, hg, if_pos, hdc] at h
          rcases ih _ h with ⟨h1, h2⟩
          simp [h1, h2, hg, codecOf, List.append_assoc]
        | raw p =>
          simp [processToken, hg, hdc] at h
        | fl d2 =>
          simp [processToken, hg, hdc] at h
        | brc d2 =>
          simp [processToken, hg, hdc] at h
    · by_cases hd : trimSpace t = "deflate"
      · simp only [processToken, hg, hd, if_pos, if_neg, not_false_iff] at h
        rcases ih _ h with ⟨h1, h2⟩
        simp [h1, h2, hd, hg, codecOf, List.append_assoc]
      · by_cases hb : trimSpace t = "br"
        · simp only [processToken, hg, hd, hb, if_pos, if_neg, not_false_iff] at h
          rcases ih _ h with ⟨h1, h2⟩
          simp [h1, h2, hb, hd, hg, codecOf, List.append_assoc]
        · by_cases hi : trimSpace t = "identity" ∨ trimSpace t = ""
          · simp only [processToken, hg, hd, hb, hi, if_pos, if_neg, not_false_iff] at h
            rcases ih _ h with ⟨h1, h2⟩
            have hnone : codecOf (trimSpace t) = none := by
              rcases hi with hi | hi <;> simp [hi, codecOf]
            simp [h1, h2, hnone]
          · simp [processToken, hg, hd, hb, hi] at h

theorem processToken_gzip_ok (res : Response) (st : LoopState) (tok : String) (d : Data)
    (ht : trimSpace tok = "gzip")
    (hdc : decodeChain st.decoders res.bodyWire = .ok (.gz d)) :
    processToken res st tok =
      ({ st with decoders := st.decoders ++ [Codec.gzip], decompressed := true,
                 consumed := true }, none) := by
  simp [processToken, ht, hdc]

theorem processToken_deflate (res : Response) (st : LoopState) (tok : String)
    (ht : trimSpace tok = "deflate") :
    processToken res st tok =
      ({ st with decoders := st.decoders ++ [Codec.deflate], decompressed := true }, none) := by
  simp [processToken, ht]

theorem processToken_br (res : Response) (st : LoopState) (tok : String)
    (ht : trimSpace tok = "br") :
    processToken res st tok =
      ({ st with decoders := st.decoders ++ [Codec.brotli], decompressed := true }, none) := by
  simp [processToken, ht]

theorem processToken_identity (res : Response) (st : LoopState) (tok : String)
    (ht : trimSpace tok = "identity" ∨ trimSpace tok = "") :
    processToken res st tok = (st, none) := by
  rcases ht with ht | ht <;> simp [processToken, ht]

theorem processToken_unsupported (res : Response) (st : LoopState) (tok : String)
    (hg : trimSpace tok ≠ "gzip") (hd : trimSpace tok ≠ "deflate")
    (hb : trimSpace tok ≠ "br") (hi : trimSpace tok ≠ "identity")
    (hne : trimSpace tok ≠ "") :
    processToken res st tok =
      (st, some (.errUnsupportedEncoding { res with bodyConsumed := st.consumed }
                  (trimSpace tok))) := by
  simp [processToken, hg, hd, hb, hi, hne]

theorem processTokens_lazy (res : Response) (toks : List String) (st : LoopState)
    (h : ∀ t ∈ toks, trimSpace t = "deflate" ∨ trimSpace t = "br" ∨
          trimSpace t = "identity" ∨ trimSpace t = "") :
    ∃ st2, processTokens res toks st = (st2, none) ∧ st2.consumed = st.consumed := by
  induction toks generalizing st with
  | nil => exact ⟨st, rfl, rfl⟩
  | cons t rest ih =>
    have hr : ∀ t ∈ rest, trimSpace t = "deflate" ∨ trimSpace t = "br" ∨
        trimSpace t = "identity" ∨ trimSpace t = "" := fun x hx => h x (List.mem_cons_of_mem _ hx)
    rcases h t (List.mem_cons_self _ _) with ht | ht | ht | ht
    · rcases ih { st with decoders := st.decoders ++ [Codec.deflate], decompressed := true } hr
        with ⟨st2, h1, h2⟩
      exact ⟨st2, by simp [processTokens, processToken_deflate res st t ht, h1], h2⟩
    · rcases ih { st with decoders := st.decoders ++ [Codec.brotli], decompressed := true } hr
        with ⟨st2, h1, h2⟩
      exact ⟨st2, by simp [processTokens, processToken_br res st t ht, h1], h2⟩
    · rcases ih st hr with ⟨st2, h1, h2⟩
      exact ⟨st2, by simp [processTokens, processToken_identity res st t (Or.inl ht), h1], h2⟩
    · rcases ih st hr with ⟨st2, h1, h2⟩
      exact ⟨st2, by simp [processTokens, processToken_identity res st t (Or.inr ht), h1], h2⟩

theorem processTokens_identity_only (res : Response) (toks : List String) (st : LoopState)
    (h : ∀ t ∈ toks, trimSpace t = "identity" ∨ trimSpace t = "") :
    processTokens res toks st = (st, none) := by
  induction toks with
  | nil => rfl
  | cons t rest ih =>
    have ht := h t (List.mem_cons_self _ _)
    have hr : ∀ t ∈ rest, trimSpace t = "identity" ∨ trimSpace t = "" :=
      fun x hx => h x (List.mem_cons_of_mem _ hx)
    simp [processTokens, processToken_identity res st t ht, ih hr]

theorem codecOf_eq_none (s : String) (hg : s ≠ "gzip") (hd : s ≠ "deflate")
    (hb : s ≠ "br") : codecOf s = none := by
  rw [codecOf.eq_def]
  split <;> simp_all

theorem processTokens_wrapped_spec (res : Response) (toks : List String)
    (st st2 : LoopState) (msg : String)
    (h : processTokens res toks st = (st2, some (.wrappedError msg))) :
    ∃ sub, msg = "decompress: create gzip reader: " ++ sub := by
  induction toks generalizing st with
  | nil => simp [processTokens] at h
  | cons t rest ih =>
    simp only [processTokens] at h
    by_cases hg : trimSpace t = "gzip"
    · cases hdc : decodeChain st.decoders res.bodyWire with
      | error e =>
        simp [processToken, hg, hdc] at h
        exact ⟨e, h.2.symm⟩
      | ok d =>
        cases d with
        | gz d2 =>
          rw [processToken_gzip_ok res st t d2 hg hdc] at h
          exact ih _ h
        | raw p =>
          simp [processToken, hg, hdc] at h
          exact ⟨"gzip: invalid header", h.2.symm⟩
        | fl d2 =>
          simp [processToken, hg, hdc] at h
          exact ⟨"gzip: invalid header", h.2.symm⟩
        | brc d2 =>
          simp [processToken, hg, hdc] at h
          exact ⟨"gzip: invalid header", h.2.symm⟩
    · by_cases hd : trimSpace t = "deflate"
      · rw [processToken_deflate res st t hd] at h
        exact ih _ h
      · by_cases hb : trimSpace t = "br"
        · rw [processToken_br res st t hb] at h
          exact ih _ h
        · by_cases hi : trimSpace t = "identity" ∨ trimSpace t = ""
          · rw [processToken_identity res st t hi] at h
            exact ih _ h
          · push_neg at hi
            rw [processToken_unsupported res st t hg hd hb hi.1 hi.2] at h
            simp at h

theorem processTokens_unsupported_spec (res : Response) (toks : List String)
    (st st2 : LoopState) (orig : Response) (enc : String)
    (h : processTokens res toks st = (st2, some (.errUnsupportedEncoding orig enc))) :
    orig = { res with bodyConsumed := st2.consumed } ∧
    (st2.consumed = st.consumed ∨ st2.consumed = true) ∧
    enc ∈ toks.map trimSpace ∧ codecOf enc = none ∧ enc ≠ "identity" ∧ enc ≠ "" := by
  induction toks generalizing st with
  | nil => simp [processTokens] at h
  | cons t rest ih =>
    simp only [processTokens] at h
    by_cases hg : trimSpace t = "gzip"
    · cases hdc : decodeChain st.decoders res.bodyWire with
      | error e => simp [processToken, hg, hdc] at h
      | ok d =>
        cases d with
        | gz d2 =>
          rw [processToken_gzip_ok res st t d2 hg hdc] at h
          rcases ih _ h with ⟨h1, h2, h3, h4, h5, h6⟩
          refine ⟨h1, Or.inr ?_, List.mem_cons_of_mem _ (by simpa using h3), h4, h5, h6⟩
          rcases h2 with h2 | h2
          · simpa using h2
          · exact h2
        | raw p => simp [processToken, hg, hdc] at h
        | fl d2 => simp [processToken, hg, hdc] at h
        | brc d2 => simp [processToken, hg, hdc] at h
    · by_cases hd : trimSpace t = "deflate"
      · rw [processToken_deflate res st t hd] at h
        rcases ih _ h with ⟨h1, h2, h3, h4, h5, h6⟩
        refine ⟨h1, ?_, List.mem_cons_of_mem _ (by simpa using h3), h4, h5, h6⟩
        rcases h2 with h2 | h2
        · exact Or.inl (by simpa using h2)
        · exact Or.inr h2
      · by_cases hb : trimSpace t = "br"
        · rw [processToken_br res st t hb] at h
          rcases ih _ h with ⟨h1, h2, h3, h4, h5, h6⟩
          refine ⟨h1, ?_, List.mem_cons_of_mem _ (by simpa using h3), h4, h5, h6⟩
          rcases h2 with h2 | h2
          · exact Or.inl (by simpa using h2)
          · exact Or.inr h2
        · by_cases hi : trimSpace t = "identity" ∨ trimSpace t = ""
          · rw [processToken_identity res st t hi] at h
            rcases ih _ h with ⟨h1, h2, h3, h4, h5, h6⟩
            exact ⟨h1, h2, List.mem_cons_of_mem _ (by simpa using h3), h4, h5, h6⟩
          · push_neg at hi
            rw [processToken_unsupported res st t hg hd hb hi.1 hi.2] at h
            have hst : st = st2 := congrArg Prod.fst h
            have he : RTError.errUnsupportedEncoding
                { res with bodyConsumed := st.consumed } (trimSpace t) =
                RTError.errUnsupportedEncoding orig enc := by
              have := congrArg Prod.snd h
              simpa using this
            have horig : { res with bodyConsumed := st.consumed } = orig := by
              have := he
              injection this
            have henc : trimSpace t = enc := by injection he
            subst hst
            refine ⟨horig.symm, Or.inl rfl, ?_, ?_, ?_, ?_⟩
            · rw [← henc]
              simp
            · rw [← henc]
              exact codecOf_eq_none _ hg hd hb
            · rw [← henc]
              exact hi.1
            · rw [← henc]
              exact hi.2

theorem headerDel_mem (h : List (String × String)) (k k2 v : String) :
    (k2, v) ∈ headerDel h k ↔ (k2, v) ∈ h ∧ k2 ≠ k := by
  simp [headerDel, List.mem_filter]

theorem headerDel_find_none (h : List (String × String)) (k : String) :
    (headerDel h k).find? (fun kv => kv.1 = k) = none := by
  rw [List.find?_eq_none]
  intro kv hkv
  rcases kv with ⟨k2, v⟩
  rw [headerDel_mem] at hkv
  simp [hkv.2]

theorem headerGet_headerDel (h : List (String × String)) (k : String) :
    headerGet (headerDel h k) k = "" := by
  simp [headerGet, headerDel_find_none]

theorem headerDel_headerDel_find_none (h : List (String × String)) (k k2 : String) :
    ((headerDel (headerDel h k) k2).find? (fun kv => kv.1 = k)) = none := by
  rw [List.find?_eq_none]
  intro kv hkv
  rcases kv with ⟨k3, v⟩
  rw [headerDel_mem, headerDel_mem] at hkv
  simp [hkv.1.2]

/- ### Claim theorems -/

/-- C1: for every response `RoundTrip` decodes successfully, the decoder
chain it builds (in application order: head decoder reads the wire bytes
first, i.e. is the innermost layer) is exactly the reverse of the
`Content-Encoding` token list's textual order, restricted to decoder tokens:
the rightmost token's decoder is innermost, the leftmost outermost, because
the loop walks the token list from last to first. -/
theorem roundTrip_decoder_order_reverse (res res2 : Response)
    (h : (roundTrip res).1 = .ok res2) :
    res2.bodyDecoders =
      res.bodyDecoders ++
        (ceTokens res).reverse.filterMap (fun t => codecOf (trimSpace t)) := by
  by_cases hlen : (headerGet res.header "Content-Encoding").length = 0
  · have hce : headerGet res.header "Content-Encoding" = "" :=
      str_eq_empty_of_length_zero _ hlen
    simp only [roundTrip, if_pos hlen] at h
    have htok : ceTokens res = [""] := by rw [ceTokens, hce]; rfl
    cases h
    simp [htok, trimSpace, trimChars, codecOf]
  · simp only [roundTrip, if_neg hlen] at h
    cases hpt : processTokens res (splitComma (headerGet res.header "Content-Encoding")).reverse
        { decoders := res.bodyDecoders, decompressed := false,
          consumed := res.bodyConsumed } with
    | mk st oe =>
      rw [hpt] at h
      cases oe with
      | some e => simp at h
      | none =>
        rcases processTokens_ok_spec _ _ _ _ hpt with ⟨h1, h2⟩
        by_cases hdec : st.decompressed
        · simp only [hdec, Bool.not_true, Bool.false_eq_true, if_false] at h
          cases h
          simpa [ceTokens] using h1
        · simp only [Bool.not_eq_true] at hdec
          simp only [hdec, Bool.not_false, if_true] at h
          cases h
          rw [hdec, Bool.false_or] at h2
          have hall : ∀ t ∈ (splitComma (headerGet res.header "Content-Encoding")).reverse,
              codecOf (trimSpace t) = none := by
            intro t ht
            have := List.any_eq_false.mp h2.symm t ht
            simpa [Option.not_isSome_iff_eq_none] using this
          have hfm : (splitComma (headerGet res.header "Content-Encoding")).reverse.filterMap
              (fun t => codecOf (trimSpace t)) = [] := by
            rw [List.filterMap_eq_nil_iff]
            exact hall
          simp [ceTokens, hfm]

/-- Concrete response: header `Content-Encoding: gzip, deflate`, body
`deflate(gzip("foobarbaz"))` — gzip applied first, deflate second, as the
header declares. -/
def resMixed : Response :=
  { statusCode := 200
    header := [("Content-Length", "30"), ("Content-Encoding", "gzip, deflate")]
    contentLength := 30
    uncompressed := false
    bodyWire := .fl (.gz (.raw "foobarbaz"))
    bodyDecoders := []
    bodyConsumed := false }

/-- The response object after `RoundTrip` decodes `resMixed`. -/
def resMixedOut : Response :=
  { statusCode := 200, header := [], contentLength := -1, uncompressed := true,
    bodyWire := .fl (.gz (.raw "foobarbaz")),
    bodyDecoders := [Codec.deflate, Codec.gzip], bodyConsumed := true }

/-- Witness for C1: on the concrete `gzip, deflate` response, the deflate
decoder (rightmost token) is the innermost chain layer and the gzip decoder
(leftmost token) the outermost. -/
theorem roundTrip_decoder_order_reverse_witness :
    (roundTrip resMixed).1 = .ok resMixedOut ∧
    resMixedOut.bodyDecoders =
      resMixed.bodyDecoders ++
        (ceTokens resMixed).reverse.filterMap (fun t => codecOf (trimSpace t)) :=
  ⟨by rfl, roundTrip_decoder_order_reverse resMixed resMixedOut (by rfl)⟩

/-- The response of C2's wording: plaintext `"foobarbaz"` deflate-compressed
first and then gzip-compressed, so the wire bytes are
`gzip(deflate("foobarbaz"))`, sent with `Content-Encoding: gzip, deflate`. -/
def resC2Claim : Response :=
  { statusCode := 200
    header := [("Content-Length", "25"), ("Content-Encoding", "gzip, deflate")]
    contentLength := 25
    uncompressed := false
    bodyWire := .gz (.fl (.raw "foobarbaz"))
    bodyDecoders := []
    bodyConsumed := false }

/-- Counterexample to C2 as stated: on wire bytes `gzip(deflate("foobarbaz"))`
with header `Content-Encoding: gzip, deflate`, `RoundTrip` does not return
`"foobarbaz"` — it fails.  The loop walks the tokens right to left, so the
deflate reader is wrapped around the wire first, and the subsequent
`gzip.NewReader` construction reads deflate-decoded bytes out of gzip data,
which the flate decoder rejects; the call returns the wrapped construction
error and no response at all.  (The header `gzip, deflate` means gzip was
applied first, so the decodable wire for that header is
`deflate(gzip(plaintext))`, as in the repository's own test.) -/
theorem roundTrip_deflateThenGzip_fails :
    (roundTrip resC2Claim).1 =
      .error (.wrappedError "decompress: create gzip reader: flate: corrupt input") := by
  rfl

/-- C2 (amended): for the plaintext `"foobarbaz"` first gzip-compressed and
then deflate-compressed (wire bytes `deflate(gzip("foobarbaz"))`), a response
carrying those bytes with header `Content-Encoding: gzip, deflate` is decoded
by `RoundTrip` back to exactly the bytes of `"foobarbaz"`. -/
theorem roundTrip_gzipThenDeflate_decodes :
    (roundTrip resMixed).1 = .ok resMixedOut ∧
    decodeChain resMixedOut.bodyDecoders resMixedOut.bodyWire = .ok (.raw "foobarbaz") :=
  ⟨rfl, rfl⟩

/-- C3: for every response whose body is the gzip compression of a plaintext
`p` and whose `Content-Encoding` header is exactly `"gzip"`, `RoundTrip`
succeeds; the returned response's body reads back `p`, its decoder chain is a
single gzip layer, `Content-Encoding` and `Content-Length` are absent from
its headers, its declared `ContentLength` is `-1` and `Uncompressed` is
`true`. -/
theorem roundTrip_gzip_success (res : Response) (p : String)
    (hce : headerGet res.header "Content-Encoding" = "gzip")
    (hw : res.bodyWire = .gz (.raw p))
    (hdecs : res.bodyDecoders = []) :
    (roundTrip res).1 =
      .ok { res with
            bodyDecoders := [Codec.gzip]
            bodyConsumed := true
            uncompressed := true
            contentLength := -1
            header := headerDel (headerDel res.header "Content-Encoding") "Content-Length" } ∧
    decodeChain [Codec.gzip] res.bodyWire = .ok (.raw p) ∧
    ((headerDel (headerDel res.header "Content-Encoding") "Content-Length").find?
        (fun kv => kv.1 = "Content-Encoding")) = none ∧
    ((headerDel (headerDel res.header "Content-Encoding") "Content-Length").find?
        (fun kv => kv.1 = "Content-Length")) = none := by
  have hne : ¬ (headerGet res.header "Content-Encoding").length = 0 := by
    rw [hce]
    decide
  have hpt : processTokens res (splitComma (headerGet res.header "Content-Encoding")).reverse
      { decoders := res.bodyDecoders, decompressed := false, consumed := res.bodyConsumed } =
      ({ decoders := res.bodyDecoders ++ [Codec.gzip], decompressed := true,
         consumed := true }, none) := by
    rw [hce, show (splitComma "gzip").reverse = ["gzip"] from rfl]
    have h1 := processToken_gzip_ok res
      { decoders := res.bodyDecoders, decompressed := false, consumed := res.bodyConsumed }
      "gzip" (.raw p) rfl (by simp [hdecs, hw, decodeChain])
    simp [processTokens, h1]
  refine ⟨?_, ?_, ?_, ?_⟩
  · simp only [roundTrip, if_neg hne, hpt]
    simp [hdecs]
  · rw [hw]
    rfl
  · exact headerDel_headerDel_find_none res.header "Content-Encoding" "Content-Length"
  · exact headerDel_find_none (headerDel res.header "Content-Encoding") "Content-Length"

/-- Concrete gzip response: `gzip("foobarbaz")` with header
`Content-Encoding: gzip` plus unrelated headers. -/
def resGzip : Response :=
  { statusCode := 200
    header := [("X-Request-Id", "42"), ("Content-Length", "33"),
               ("Content-Encoding", "gzip")]
    contentLength := 33
    uncompressed := false
    bodyWire := .gz (.raw "foobarbaz")
    bodyDecoders := []
    bodyConsumed := false }

/-- Witness for C3 at `resGzip`. -/
theorem roundTrip_gzip_success_witness :
    headerGet resGzip.header "Content-Encoding" = "gzip" ∧
    resGzip.bodyWire = .gz (.raw "foobarbaz") ∧
    resGzip.bodyDecoders = [] ∧
    ((roundTrip resGzip).1 =
      .ok { resGzip with
            bodyDecoders := [Codec.gzip]
            bodyConsumed := true
            uncompressed := true
            contentLength := -1
            header := headerDel (headerDel resGzip.header "Content-Encoding")
              "Content-Length" } ∧
    decodeChain [Codec.gzip] resGzip.bodyWire = .ok (.raw "foobarbaz") ∧
    ((headerDel (headerDel resGzip.header "Content-Encoding") "Content-Length").find?
        (fun kv => kv.1 = "Content-Encoding")) = none ∧
    ((headerDel (headerDel resGzip.header "Content-Encoding") "Content-Length").find?
        (fun kv => kv.1 = "Content-Length")) = none) :=
  ⟨rfl, rfl, rfl, roundTrip_gzip_success resGzip "foobarbaz" rfl rfl rfl⟩

/-- C4 (amended): when `RoundTrip` returns `ErrUnsupportedEncoding`, the
carried `Original` is the input response object with its headers, declared
length, `Uncompressed` flag, body reference and decoder chain unchanged, and
the carried `Encoding` is a trimmed, unrecognized token of the
`Content-Encoding` header; the raw body stream content is also untouched
unless a gzip token to the right of the offending token was processed first,
in which case the eager `gzip.NewReader` construction has already consumed
bytes from it (`bodyConsumed = true`).  The `after` component records the
state of the response object when the call returns; it is the very object
carried inside the error. -/
theorem roundTrip_unsupported_original_preserved (res orig after : Response) (enc : String)
    (h : roundTrip res = (.error (.errUnsupportedEncoding orig enc), after)) :
    orig.statusCode = res.statusCode ∧ orig.header = res.header ∧
    orig.contentLength = res.contentLength ∧ orig.uncompressed = res.uncompressed ∧
    orig.bodyWire = res.bodyWire ∧ orig.bodyDecoders = res.bodyDecoders ∧
    (orig.bodyConsumed = res.bodyConsumed ∨ orig.bodyConsumed = true) ∧
    enc ∈ (ceTokens res).map trimSpace ∧ codecOf enc = none ∧
    enc ≠ "identity" ∧ enc ≠ "" ∧ after = orig := by
  by_cases hlen : (headerGet res.header "Content-Encoding").length = 0
  · simp [roundTrip, hlen] at h
  · simp only [roundTrip, if_neg hlen] at h
    cases hpt : processTokens res (splitComma (headerGet res.header "Content-Encoding")).reverse
        { decoders := res.bodyDecoders, decompressed := false,
          consumed := res.bodyConsumed } with
    | mk st oe =>
      rw [hpt] at h
      cases oe with
      | none =>
        by_cases hdec : st.decompressed <;> simp [hdec] at h
      | some e =>
        simp only [Prod.mk.injEq, Except.error.injEq] at h
        rcases h with ⟨he, hafter⟩
        subst he
        rcases processTokens_unsupported_spec _ _ _ _ _ _ hpt with ⟨h1, h2, h3, h4, h5, h6⟩
        subst h1
        refine ⟨rfl, rfl, rfl, rfl, rfl, rfl, ?_, ?_, h4, h5, h6, hafter.symm⟩
        · simpa using h2
        · simpa [ceTokens, List.mem_reverse] using h3

/-- The concrete input of C4's example: header
`Content-Encoding: unsupported, gzip`, gzip-compressed body. -/
def resC4 : Response :=
  { statusCode := 200
    header := [("Content-Length", "23"), ("Content-Encoding", "unsupported, gzip")]
    contentLength := 23
    uncompressed := false
    bodyWire := .gz (.raw "abc")
    bodyDecoders := []
    bodyConsumed := false }

/-- The response object after `RoundTrip` fails on `resC4`: headers, length
and flag untouched, but the raw body stream was already read from. -/
def resC4After : Response :=
  { resC4 with bodyConsumed := true }

/-- Counterexample to C4 as stated: for `Content-Encoding: unsupported, gzip`
the loop processes the rightmost token `gzip` first, and `gzip.NewReader`
eagerly reads the stream header, consuming bytes from the raw body, before
the `unsupported` token aborts the chain.  The error does carry
`Encoding = "unsupported"` and the original response object with untouched
metadata, but reading that object's body to completion can no longer yield
the untouched input content: the consumed bytes sit in the discarded
decoder's buffer. -/
theorem roundTrip_unsupported_body_consumed :
    roundTrip resC4 = (.error (.errUnsupportedEncoding resC4After "unsupported"), resC4After) ∧
    resC4.bodyConsumed = false ∧
    Response.readRawBodyAll resC4 = some (.gz (.raw "abc")) ∧
    Response.readRawBodyAll resC4After = none :=
  ⟨rfl, rfl, rfl, rfl⟩

/-- Witness for C4 (amended) at `resC4`. -/
theorem roundTrip_unsupported_original_preserved_witness :
    roundTrip resC4 = (.error (.errUnsupportedEncoding resC4After "unsupported"), resC4After) ∧
    (resC4After.statusCode = resC4.statusCode ∧ resC4After.header = resC4.header ∧
    resC4After.contentLength = resC4.contentLength ∧
    resC4After.uncompressed = resC4.uncompressed ∧
    resC4After.bodyWire = resC4.bodyWire ∧ resC4After.bodyDecoders = resC4.bodyDecoders ∧
    (resC4After.bodyConsumed = resC4.bodyConsumed ∨ resC4After.bodyConsumed = true) ∧
    "unsupported" ∈ (ceTokens resC4).map trimSpace ∧ codecOf "unsupported" = none ∧
    "unsupported" ≠ "identity" ∧ "unsupported" ≠ "" ∧ resC4After = resC4After) :=
  ⟨rfl, roundTrip_unsupported_original_preserved resC4 resC4After resC4After "unsupported" rfl⟩

/-- C5: `cascadeReadCloser.Close` always attempts both the outer decoder's
close and the underlying stream's close — each close-call counter increases by
one regardless of the outcomes.  If both fail the returned error is the
combined `fmt.Errorf("%s: %s", rerr, cerr)` message describing both causes;
if exactly one fails that single error is returned; if neither fails the
close returns no error. -/
theorem cascadeReadCloser_Close_spec (c : cascadeReadCloser) :
    (cascadeReadCloser.Close c).1.readFrom.calls = c.readFrom.calls + 1 ∧
    (cascadeReadCloser.Close c).1.cascade.calls = c.cascade.calls + 1 ∧
    (c.readFrom.result = none → c.cascade.result = none →
      (cascadeReadCloser.Close c).2 = none) ∧
    (∀ x, c.readFrom.result = some x → c.cascade.result = none →
      (cascadeReadCloser.Close c).2 = some x) ∧
    (∀ y, c.readFrom.result = none → c.cascade.result = some y →
      (cascadeReadCloser.Close c).2 = some y) ∧
    (∀ x y, c.readFrom.result = some x → c.cascade.result = some y →
      (cascadeReadCloser.Close c).2 = some (x ++ ": " ++ y)) := by
  cases hr : c.readFrom.result with
  | none =>
    cases hc : c.cascade.result with
    | none => simp [cascadeReadCloser.Close, Closer.close, hr, hc]
    | some y => simp [cascadeReadCloser.Close, Closer.close, hr, hc]
  | some x =>
    cases hc : c.cascade.result with
    | none => simp [cascadeReadCloser.Close, Closer.close, hr, hc]
    | some y => simp [cascadeReadCloser.Close, Closer.close, hr, hc]

/-- A cascading layer whose decoder close and underlying close both fail. -/
def ccBothFail : cascadeReadCloser :=
  { readFrom := { calls := 0, result := some "decoder close failed" }
    cascade := { calls := 0, result := some "body close failed" } }

/-- Witness for C5: with both closes failing, both are still attempted and
the single returned error contains both causes. -/
theorem cascadeReadCloser_Close_spec_witness :
    (cascadeReadCloser.Close ccBothFail).1.readFrom.calls = ccBothFail.readFrom.calls + 1 ∧
    (cascadeReadCloser.Close ccBothFail).1.cascade.calls = ccBothFail.cascade.calls + 1 ∧
    (cascadeReadCloser.Close ccBothFail).2 =
      some ("decoder close failed" ++ ": " ++ "body close failed") :=
  ⟨(cascadeReadCloser_Close_spec ccBothFail).1,
   (cascadeReadCloser_Close_spec ccBothFail).2.1,
   (cascadeReadCloser_Close_spec ccBothFail).2.2.2.2.2
     "decoder close failed" "body close failed" rfl rfl⟩

/-- C6: for every response whose `Content-Encoding` header is absent or
empty, or whose tokens are all `identity` (or empty strings), `RoundTrip`
returns the original response object unchanged: same body, same
`Uncompressed` flag (`false` for a response coming from a real transport),
same declared length and header fields. -/
theorem roundTrip_identity_noop (res : Response)
    (h : ∀ t ∈ ceTokens res, trimSpace t = "identity" ∨ trimSpace t = "") :
    roundTrip res = (.ok res, res) := by
  by_cases hlen : (headerGet res.header "Content-Encoding").length = 0
  · simp [roundTrip, hlen]
  · have h2 : ∀ t ∈ (splitComma (headerGet res.header "Content-Encoding")).reverse,
        trimSpace t = "identity" ∨ trimSpace t = "" := by
      intro t ht
      exact h t (by simpa [ceTokens] using ht)
    simp [roundTrip, hlen,
      processTokens_identity_only res
        (splitComma (headerGet res.header "Content-Encoding")).reverse
        { decoders := res.bodyDecoders, decompressed := false,
          consumed := res.bodyConsumed } h2]

/-- Response with only `identity` tokens (and surrounding whitespace). -/
def resIdentity : Response :=
  { statusCode := 200
    header := [("Content-Length", "9"), ("Content-Encoding", "identity, identity")]
    contentLength := 9
    uncompressed := false
    bodyWire := .raw "foobarbaz"
    bodyDecoders := []
    bodyConsumed := false }

/-- Response with no `Content-Encoding` header at all. -/
def resPlain : Response :=
  { statusCode := 200
    header := [("Content-Length", "9")]
    contentLength := 9
    uncompressed := false
    bodyWire := .raw "foobarbaz"
    bodyDecoders := []
    bodyConsumed := false }

/-- Witness for C6: both for an `identity`-only header and for an absent
header, the response comes back identical. -/
theorem roundTrip_identity_noop_witness :
    (∀ t ∈ ceTokens resIdentity, trimSpace t = "identity" ∨ trimSpace t = "") ∧
    roundTrip resIdentity = (.ok resIdentity, resIdentity) ∧
    (∀ t ∈ ceTokens resPlain, trimSpace t = "identity" ∨ trimSpace t = "") ∧
    roundTrip resPlain = (.ok resPlain, resPlain) :=
  ⟨by decide, roundTrip_identity_noop resIdentity (by decide),
   by decide, roundTrip_identity_noop resPlain (by decide)⟩

/-- C7: whenever `RoundTrip` succeeds, either it performed no decoding and
the response is returned untouched, or it decoded and then exactly the
`Content-Encoding` and `Content-Length` entries are removed from the header
map — every other header entry is kept, in order — the declared length
becomes `-1`, the `Uncompressed` flag becomes `true`, and the untouched
fields (status, wire content) are unchanged. -/
theorem roundTrip_success_frame (res res2 : Response)
    (h : (roundTrip res).1 = .ok res2) :
    res2 = res ∨
      (res2.header = headerDel (headerDel res.header "Content-Encoding") "Content-Length" ∧
       (∀ k v, (k, v) ∈ res2.header ↔
          ((k, v) ∈ res.header ∧ k ≠ "Content-Encoding" ∧ k ≠ "Content-Length")) ∧
       res2.contentLength = -1 ∧ res2.uncompressed = true ∧
       res2.statusCode = res.statusCode ∧ res2.bodyWire = res.bodyWire) := by
  by_cases hlen : (headerGet res.header "Content-Encoding").length = 0
  · simp only [roundTrip, if_pos hlen] at h
    cases h
    exact Or.inl rfl
  · simp only [roundTrip, if_neg hlen] at h
    cases hpt : processTokens res (splitComma (headerGet res.header "Content-Encoding")).reverse
        { decoders := res.bodyDecoders, decompressed := false,
          consumed := res.bodyConsumed } with
    | mk st oe =>
      rw [hpt] at h
      cases oe with
      | some e => simp at h
      | none =>
        by_cases hdec : st.decompressed
        · simp only [hdec, Bool.not_true, Bool.false_eq_true, if_false] at h
          cases h
          refine Or.inr ⟨rfl, ?_, rfl, rfl, rfl, rfl⟩
          intro k v
          rw [headerDel_mem, headerDel_mem]
          tauto
        · simp only [Bool.not_eq_true] at hdec
          simp only [hdec, Bool.not_false, if_true] at h
          cases h
          exact Or.inl rfl

/-- Witness for C7 at the decoded `gzip, deflate` response: only the two
entries are dropped from the header map. -/
theorem roundTrip_success_frame_witness :
    (roundTrip resMixed).1 = .ok resMixedOut ∧
    (resMixedOut = resMixed ∨
      (resMixedOut.header =
        headerDel (headerDel resMixed.header "Content-Encoding") "Content-Length" ∧
       (∀ k v, (k, v) ∈ resMixedOut.header ↔
          ((k, v) ∈ resMixed.header ∧ k ≠ "Content-Encoding" ∧ k ≠ "Content-Length")) ∧
       resMixedOut.contentLength = -1 ∧ resMixedOut.uncompressed = true ∧
       resMixedOut.statusCode = resMixed.statusCode ∧
       resMixedOut.bodyWire = resMixed.bodyWire)) :=
  ⟨rfl, roundTrip_success_frame resMixed resMixedOut rfl⟩

/-- C8: when a recognized codec fails at decoder construction (only gzip can,
e.g. on bad magic bytes), `RoundTrip` returns the codec's error wrapped with
the descriptive context `decompress: create gzip reader: `, and no response
metadata mutation is committed: the response object's headers, declared
length and `Uncompressed` flag are unchanged when the error is returned. -/
theorem roundTrip_gzip_init_error (res after : Response) (msg : String)
    (h : roundTrip res = (.error (.wrappedError msg), after)) :
    (∃ sub, msg = "decompress: create gzip reader: " ++ sub) ∧
    after.statusCode = res.statusCode ∧ after.header = res.header ∧
    after.contentLength = res.contentLength ∧ after.uncompressed = res.uncompressed ∧
    after.bodyWire = res.bodyWire ∧ after.bodyDecoders = res.bodyDecoders := by
  by_cases hlen : (headerGet res.header "Content-Encoding").length = 0
  · simp [roundTrip, hlen] at h
  · simp only [roundTrip, if_neg hlen] at h
    cases hpt : processTokens res (splitComma (headerGet res.header "Content-Encoding")).reverse
        { decoders := res.bodyDecoders, decompressed := false,
          consumed := res.bodyConsumed } with
    | mk st oe =>
      rw [hpt] at h
      cases oe with
      | none =>
        by_cases hdec : st.decompressed <;> simp [hdec] at h
      | some e =>
        simp only [Prod.mk.injEq, Except.error.injEq] at h
        rcases h with ⟨he, hafter⟩
        subst he
        subst hafter
        exact ⟨processTokens_wrapped_spec _ _ _ _ _ hpt, rfl, rfl, rfl, rfl, rfl, rfl⟩

/-- A response claiming gzip whose body is not gzip data (bad magic bytes). -/
def resBadGzip : Response :=
  { statusCode := 200
    header := [("Content-Length", "5"), ("Content-Encoding", "gzip")]
    contentLength := 5
    uncompressed := false
    bodyWire := .raw "hello"
    bodyDecoders := []
    bodyConsumed := false }

/-- Witness for C8: `gzip.NewReader` rejects the plain body and `RoundTrip`
returns the wrapped construction error with the response metadata intact. -/
theorem roundTrip_gzip_init_error_witness :
    roundTrip resBadGzip =
      (.error (.wrappedError "decompress: create gzip reader: gzip: invalid header"),
       { resBadGzip with bodyConsumed := true }) ∧
    ((∃ sub, "decompress: create gzip reader: gzip: invalid header" =
        "decompress: create gzip reader: " ++ sub) ∧
     ({ resBadGzip with bodyConsumed := true } : Response).statusCode = resBadGzip.statusCode ∧
     ({ resBadGzip with bodyConsumed := true } : Response).header = resBadGzip.header ∧
     ({ resBadGzip with bodyConsumed := true } : Response).contentLength =
        resBadGzip.contentLength ∧
     ({ resBadGzip with bodyConsumed := true } : Response).uncompressed =
        resBadGzip.uncompressed ∧
     ({ resBadGzip with bodyConsumed := true } : Response).bodyWire = resBadGzip.bodyWire ∧
     ({ resBadGzip with bodyConsumed := true } : Response).bodyDecoders =
        resBadGzip.bodyDecoders) :=
  ⟨rfl, roundTrip_gzip_init_error resBadGzip { resBadGzip with bodyConsumed := true }
      "decompress: create gzip reader: gzip: invalid header" rfl⟩

/-- C9: token matching is exact and case-sensitive: a single
`Content-Encoding` token that is not literally one of `gzip`, `deflate`,
`br`, `identity` or the empty string — e.g. a case variant such as `GZIP`,
`Br` or `Identity` — is not decoded; `RoundTrip` returns
`ErrUnsupportedEncoding` carrying that token and the untouched response. -/
theorem roundTrip_token_case_sensitive (res : Response) (s : String)
    (hce : headerGet res.header "Content-Encoding" = s)
    (hsplit : splitComma s = [s]) (htrim : trimSpace s = s)
    (hg : s ≠ "gzip") (hd : s ≠ "deflate") (hb : s ≠ "br")
    (hi : s ≠ "identity") (hne : s ≠ "") :
    roundTrip res = (.error (.errUnsupportedEncoding res s), res) := by
  have hlen : ¬ (headerGet res.header "Content-Encoding").length = 0 := by
    intro h0
    rw [hce] at h0
    exact hne (str_eq_empty_of_length_zero _ h0)
  have hpt : processTokens res (splitComma (headerGet res.header "Content-Encoding")).reverse
      { decoders := res.bodyDecoders, decompressed := false,
        consumed := res.bodyConsumed } =
      ({ decoders := res.bodyDecoders, decompressed := false,
         consumed := res.bodyConsumed },
       some (.errUnsupportedEncoding res s)) := by
    rw [hce, hsplit]
    have hu := processToken_unsupported res
      { decoders := res.bodyDecoders, decompressed := false, consumed := res.bodyConsumed }
      s (by rw [htrim]; exact hg) (by rw [htrim]; exact hd) (by rw [htrim]; exact hb)
      (by rw [htrim]; exact hi) (by rw [htrim]; exact hne)
    rw [htrim] at hu
    simp [processTokens, hu]
  simp [roundTrip, hlen, hpt]

/-- Response with the case-variant header `Content-Encoding: GZIP`. -/
def resUpperGzip : Response :=
  { statusCode := 200
    header := [("Content-Length", "33"), ("Content-Encoding", "GZIP")]
    contentLength := 33
    uncompressed := false
    bodyWire := .gz (.raw "foobarbaz")
    bodyDecoders := []
    bodyConsumed := false }

/-- Witness for C9: `GZIP` is not matched by the `gzip` case. -/
theorem roundTrip_token_case_sensitive_witness :
    headerGet resUpperGzip.header "Content-Encoding" = "GZIP" ∧
    roundTrip resUpperGzip =
      (.error (.errUnsupportedEncoding resUpperGzip "GZIP"), resUpperGzip) :=
  ⟨rfl, roundTrip_token_case_sensitive resUpperGzip "GZIP" rfl (by decide) (by decide)
    (by decide) (by decide) (by decide) (by decide) (by decide)⟩

/-- Forward form: when every token to the right of an unrecognized token is a
lazily-constructed decoder or a no-op, that token aborts resolution and is
carried in the error, whatever stands to its left. -/
theorem roundTrip_unsupported_of_rightmost (res : Response) (A B : List String) (t : String)
    (hsplit : ceTokens res = A ++ t :: B)
    (hB : ∀ b ∈ B, trimSpace b = "deflate" ∨ trimSpace b = "br" ∨
          trimSpace b = "identity" ∨ trimSpace b = "")
    (hg : trimSpace t ≠ "gzip") (hd : trimSpace t ≠ "deflate") (hb : trimSpace t ≠ "br")
    (hi : trimSpace t ≠ "identity") (hne : trimSpace t ≠ "") :
    (roundTrip res).1 = .error (.errUnsupportedEncoding res (trimSpace t)) := by
  have hlen : ¬ (headerGet res.header "Content-Encoding").length = 0 := by
    intro h0
    have hce : headerGet res.header "Content-Encoding" = "" :=
      str_eq_empty_of_length_zero _ h0
    have htok : ceTokens res = [""] := by rw [ceTokens, hce]; rfl
    rw [hsplit] at htok
    cases A with
    | nil =>
      simp at htok
      exact hne (by rw [htok.1]; rfl)
    | cons a A2 =>
      simp at htok
  have hrev : (splitComma (headerGet res.header "Content-Encoding")).reverse =
      B.reverse ++ t :: A.reverse := by
    have : splitComma (headerGet res.header "Content-Encoding") = A ++ t :: B := hsplit
    rw [this]
    simp
  rcases processTokens_lazy res B.reverse
      { decoders := res.bodyDecoders, decompressed := false,
        consumed := res.bodyConsumed }
      (fun b hb2 => hB b (List.mem_reverse.mp hb2)) with ⟨st2, hok, hcons⟩
  have hu := processToken_unsupported res st2 t hg hd hb hi hne
  have hpt : processTokens res (splitComma (headerGet res.header "Content-Encoding")).reverse
      { decoders := res.bodyDecoders, decompressed := false,
        consumed := res.bodyConsumed } =
      (st2, some (.errUnsupportedEncoding { res with bodyConsumed := st2.consumed }
        (trimSpace t))) := by
    rw [hrev, processTokens_append, hok]
    simp [processTokens, hu]
  have hconsumed : ({ res with bodyConsumed := st2.consumed } : Response) = res := by
    rw [hcons]
  simp [roundTrip, hlen, hpt, hconsumed]

/-- Response with two unrecognized tokens: `Content-Encoding: foo, bar`. -/
def resFooBar : Response :=
  { statusCode := 200
    header := [("Content-Length", "9"), ("Content-Encoding", "foo, bar")]
    contentLength := 9
    uncompressed := false
    bodyWire := .raw "foobarbaz"
    bodyDecoders := []
    bodyConsumed := false }

/-- Every iteration that runs before an `ErrUnsupportedEncoding` is produced
processed a recognized decoder token or a no-op token: the loop stops at the
first unrecognized token in processing order. -/
theorem processTokens_unsupported_first (res : Response) (toks : List String)
    (st st2 : LoopState) (orig : Response) (enc : String)
    (h : processTokens res toks st = (st2, some (.errUnsupportedEncoding orig enc))) :
    ∃ pre t post, toks = pre ++ t :: post ∧ enc = trimSpace t ∧
      codecOf (trimSpace t) = none ∧ trimSpace t ≠ "identity" ∧ trimSpace t ≠ "" ∧
      ∀ x ∈ pre, (codecOf (trimSpace x)).isSome = true ∨
        trimSpace x = "identity" ∨ trimSpace x = "" := by
  induction toks generalizing st with
  | nil => simp [processTokens] at h
  | cons u rest ih =>
    simp only [processTokens] at h
    by_cases hg : trimSpace u = "gzip"
    · cases hdc : decodeChain st.decoders res.bodyWire with
      | error e => simp [processToken, hg, hdc] at h
      | ok d =>
        cases d with
        | gz d2 =>
          rw [processToken_gzip_ok res st u d2 hg hdc] at h
          rcases ih _ h with ⟨pre, t, post, h1, h2, h3, h4, h5, h6⟩
          refine ⟨u :: pre, t, post, by rw [h1]; rfl, h2, h3, h4, h5, ?_⟩
          intro x hx
          rcases List.mem_cons.mp hx with hx | hx
          · subst hx
            exact Or.inl (by rw [hg]; rfl)
          · exact h6 x hx
        | raw p => simp [processToken, hg, hdc] at h
        | fl d2 => simp [processToken, hg, hdc] at h
        | brc d2 => simp [processToken, hg, hdc] at h
    · by_cases hd : trimSpace u = "deflate"
      · rw [processToken_deflate res st u hd] at h
        rcases ih _ h with ⟨pre, t, post, h1, h2, h3, h4, h5, h6⟩
        refine ⟨u :: pre, t, post, by rw [h1]; rfl, h2, h3, h4, h5, ?_⟩
        intro x hx
        rcases List.mem_cons.mp hx with hx | hx
        · subst hx
          exact Or.inl (by rw [hd]; rfl)
        · exact h6 x hx
      · by_cases hb : trimSpace u = "br"
        · rw [processToken_br res st u hb] at h
          rcases ih _ h with ⟨pre, t, post, h1, h2, h3, h4, h5, h6⟩
          refine ⟨u :: pre, t, post, by rw [h1]; rfl, h2, h3, h4, h5, ?_⟩
          intro x hx
          rcases List.mem_cons.mp hx with hx | hx
          · subst hx
            exact Or.inl (by rw [hb]; rfl)
          · exact h6 x hx
        · by_cases hi2 : trimSpace u = "identity" ∨ trimSpace u = ""
          · rw [processToken_identity res st u hi2] at h
            rcases ih _ h with ⟨pre, t, post, h1, h2, h3, h4, h5, h6⟩
            refine ⟨u :: pre, t, post, by rw [h1]; rfl, h2, h3, h4, h5, ?_⟩
            intro x hx
            rcases List.mem_cons.mp hx with hx | hx
            · subst hx
              exact Or.inr hi2
            · exact h6 x hx
          · push_neg at hi2
            rw [processToken_unsupported res st u hg hd hb hi2.1 hi2.2] at h
            simp only [Prod.mk.injEq, Option.some.injEq,
              RTError.errUnsupportedEncoding.injEq] at h
            refine ⟨[], u, rest, rfl, h.2.2.symm, codecOf_eq_none _ hg hd hb,
              hi2.1, hi2.2, by simp⟩

/-- C10: whenever `RoundTrip` returns an `ErrUnsupportedEncoding`, the carried
`Encoding` is the trimmed form of the rightmost unrecognized token of the
`Content-Encoding` header: the token list decomposes as `A ++ t :: B` where
the error carries `trimSpace t` and every token of `B` (everything to the
right of `t`) is a recognized decoder token or a no-op (`identity` / empty) —
because the loop examines tokens right to left and the first unrecognized one
aborts resolution.  E.g. for `Content-Encoding: foo, bar` the carried
encoding is `"bar"`, not `"foo"`. -/
theorem roundTrip_rightmost_unsupported_wins (res orig : Response) (enc : String)
    (h : (roundTrip res).1 = .error (.errUnsupportedEncoding orig enc)) :
    ∃ A B t, ceTokens res = A ++ t :: B ∧ enc = trimSpace t ∧
      codecOf (trimSpace t) = none ∧ trimSpace t ≠ "identity" ∧ trimSpace t ≠ "" ∧
      ∀ b ∈ B, (codecOf (trimSpace b)).isSome = true ∨
        trimSpace b = "identity" ∨ trimSpace b = "" := by
  by_cases hlen : (headerGet res.header "Content-Encoding").length = 0
  · simp [roundTrip, hlen] at h
  · simp only [roundTrip, if_neg hlen] at h
    cases hpt : processTokens res (splitComma (headerGet res.header "Content-Encoding")).reverse
        { decoders := res.bodyDecoders, decompressed := false,
          consumed := res.bodyConsumed } with
    | mk st oe =>
      rw [hpt] at h
      cases oe with
      | none =>
        by_cases hdec : st.decompressed <;> simp [hdec] at h
      | some e =>
        simp only at h
        cases h2 : e with
        | transport m => rw [h2] at h; simp at h
        | wrappedError m => rw [h2] at h; simp at h
        | errUnsupportedEncoding orig2 enc2 =>
          rw [h2] at h
          simp only [Except.error.injEq, RTError.errUnsupportedEncoding.injEq] at h
          rw [h2] at hpt
          rcases processTokens_unsupported_first _ _ _ _ _ _ hpt
            with ⟨pre, t, post, h1, henc, h3, h4, h5, h6⟩
          refine ⟨post.reverse, pre.reverse, t, ?_, h.2 ▸ henc, h3, h4, h5, ?_⟩
          · have : splitComma (headerGet res.header "Content-Encoding") =
                (pre ++ t :: post).reverse := by
              rw [← h1]
              simp
            rw [ceTokens, this]
            simp
          · intro b hbmem
            exact h6 b (List.mem_reverse.mp hbmem)

/-- Witness for C10: for `foo, bar` the carried encoding is `"bar"`; the
decomposition puts `"foo"` strictly to its left. -/
theorem roundTrip_rightmost_unsupported_wins_witness :
    (roundTrip resFooBar).1 =
      .error (.errUnsupportedEncoding { resFooBar with bodyConsumed := false } "bar") ∧
    (∃ A B t, ceTokens resFooBar = A ++ t :: B ∧ "bar" = trimSpace t ∧
      codecOf (trimSpace t) = none ∧ trimSpace t ≠ "identity" ∧ trimSpace t ≠ "" ∧
      ∀ b ∈ B, (codecOf (trimSpace b)).isSome = true ∨
        trimSpace b = "identity" ∨ trimSpace b = "") :=
  ⟨rfl, roundTrip_rightmost_unsupported_wins resFooBar
    { resFooBar with bodyConsumed := false } "bar" rfl⟩
